import Mathlib

/-!
Verification of the trajectory-reconstruction and space-time aggregation core
of the traffic-flow-analysis repository (scripts/edies_analysis.py, with the
identical aggregation logic of scripts/mixed_edies_analysis.py).

Numeric values are modelled with exact rationals (`ℚ`); the Python floats are
idealized as exact arithmetic.  Fallible computations return `Except PyError`,
where the constructors name the Python exception classes the code actually
raises (plus the error names the specification postulates, which lets us state
that the code never raises them).
-/

namespace Edies

/-- Python exception classes relevant to the analysed code, together with the
error categories the specification postulates (`invalidConfiguration`,
`insufficientData`), which the code never raises. -/
inductive PyError where
  | valueError
  | zeroDivisionError
  | invalidConfiguration
  | insufficientData
deriving DecidableEq, Repr

/-- One vehicle's reconstructed trajectory: parallel arrays of sample times,
continuous positions and speeds (the dict values built by `parse_fcd_file`). -/
structure Traj where
  time : List ℚ
  pos : List ℚ
  speed : List ℚ
deriving DecidableEq, Repr

/-- Python / numpy `%` with a rational left operand: `a % L = a - L*⌊a/L⌋`
(floor division semantics, result has the sign of the divisor).
`edies_analysis.py` line 95: `positions = data['pos'][time_mask] % total_length`. -/
def rmod (a L : ℚ) : ℚ := a - L * ⌊a / L⌋

/-- Margin-restricted sample window of a vehicle for the time window
`[t0, t1)`: samples with `t0 - dt <= time <= t1 + dt`, as (time, raw pos)
pairs (`time_mask` of line 90). -/
def marginSamples (dtm t0 t1 : ℚ) (tr : Traj) : List (ℚ × ℚ) :=
  (tr.time.zip tr.pos).filter fun a => decide (t0 - dtm ≤ a.1) && decide (a.1 ≤ t1 + dtm)

/-- The `times` array of line 94: times of the margin-restricted window. -/
def marginTimes (dtm t0 t1 : ℚ) (tr : Traj) : List ℚ :=
  (marginSamples dtm t0 t1 tr).map Prod.fst

/-- The `positions` array of line 95: margin-restricted positions wrapped
modulo the corridor length. -/
def wrappedPos (L dtm t0 t1 : ℚ) (tr : Traj) : List ℚ :=
  (marginSamples dtm t0 t1 tr).map fun a => rmod a.2 L

/-- Whether `np.interp(x, xp, fp, left=nan, right=nan)` yields NaN at query
point `x`: numpy compares `x` against the first and last entries of `xp`
(`xp_left = xp[0]`, `xp_right = xp[-1]`), regardless of whether `xp` is
sorted.  Interior interpolated values are finite (they are never inspected by
the aggregator, which only tests NaN-ness of the boundary queries). -/
def interpUndef (x : ℚ) (xp : List ℚ) : Bool :=
  decide (x < xp.headD 0) || decide (xp.getLastD 0 < x)

/-- The in-cell samples of lines 105-107: margin-window samples whose wrapped
position lies in `[x0, x1)`, as (time, wrapped pos) pairs (`cell_times` and
`cell_positions`). -/
def cellSamples (L dtm t0 t1 x0 x1 : ℚ) (tr : Traj) : List (ℚ × ℚ) :=
  ((marginTimes dtm t0 t1 tr).zip (wrappedPos L dtm t0 t1 tr)).filter
    fun a => decide (x0 ≤ a.2) && decide (a.2 < x1)

/-- Per-cell accumulators of lines 83-85: `total_time_spent`,
`total_distance`, `vehicles_crossed`. -/
structure CellAcc where
  timeSpent : ℚ
  dist : ℚ
  crossed : ℕ
deriving DecidableEq, Repr

/-- `time_in_cell` of line 111:
`min(t_end, cell_times[-1]) - max(t_start, cell_times[0])`. -/
def cellTimeIn (L dtm t0 t1 x0 x1 : ℚ) (tr : Traj) : ℚ :=
  min t1 (((cellSamples L dtm t0 t1 x0 x1 tr).map Prod.fst).getLastD 0) -
    max t0 (((cellSamples L dtm t0 t1 x0 x1 tr).map Prod.fst).headD 0)

/-- `distance` of lines 116-118:
`min(x_end, cell_positions[-1]) - max(x_start, cell_positions[0])`. -/
def cellDist (L dtm t0 t1 x0 x1 : ℚ) (tr : Traj) : ℚ :=
  min x1 (((cellSamples L dtm t0 t1 x0 x1 tr).map Prod.snd).getLastD 0) -
    max x0 (((cellSamples L dtm t0 t1 x0 x1 tr).map Prod.snd).headD 0)

/-- One vehicle's contribution to one cell's accumulators (lines 88-124).
The `speeds` array of line 96 is bound by the Python code but never used.
Note the code's nesting: the distance contribution lives inside the
`time_in_cell > 0` branch, and the crossing test lives inside the
`len(cell_times) > 0` branch. -/
def vehCellStats (L dtm t0 t1 x0 x1 : ℚ) (tr : Traj) : CellAcc :=
  let times := marginTimes dtm t0 t1 tr
  let positions := wrappedPos L dtm t0 t1 tr
  if 1 < times.length then
    let undef0 := interpUndef x0 positions
    let undef1 := interpUndef x1 positions
    let cell := cellSamples L dtm t0 t1 x0 x1 tr
    if cell = [] then ⟨0, 0, 0⟩
    else
      let timeInCell := cellTimeIn L dtm t0 t1 x0 x1 tr
      let distance := cellDist L dtm t0 t1 x0 x1 tr
      { timeSpent := if 0 < timeInCell then timeInCell else 0
        dist := if 0 < timeInCell then (if 0 < distance then distance else 0) else 0
        crossed := if undef0 && undef1 then 0 else 1 }
  else ⟨0, 0, 0⟩

/-- Accumulate all vehicles' contributions to one cell (the vehicle loop of
lines 88-124, `+=` accumulation). -/
def cellAcc (trs : List Traj) (L dtm t0 t1 x0 x1 : ℚ) : CellAcc :=
  trs.foldl
    (fun acc tr =>
      let s := vehCellStats L dtm t0 t1 x0 x1 tr
      ⟨acc.timeSpent + s.timeSpent, acc.dist + s.dist, acc.crossed + s.crossed⟩)
    ⟨0, 0, 0⟩

/-- Per-cell density/flow/speed before unit conversion (lines 126-139), with
the guarded divisions: `if area > 0`, `if dt > 0`, `if total_time_spent > 0`,
leaving the zero-initialised entry otherwise. -/
def cellOut (dx dtm : ℚ) (a : CellAcc) : ℚ × ℚ × ℚ :=
  (if 0 < dx * dtm then a.timeSpent / (dx * dtm) else 0,
   if 0 < dtm then (a.crossed : ℚ) / dtm else 0,
   if 0 < a.timeSpent then a.dist / a.timeSpent else 0)

/-- The number of elements of `np.arange(start, stop, step)` for a nonzero
step: `max(ceil((stop - start)/step), 0)`. -/
def arangeLen (start stop step : ℚ) : ℤ := max ⌈(stop - start) / step⌉ 0

/-- `np.min` over a (nonempty) array, as a fold. -/
def listMin (xs : List ℚ) : ℚ := xs.foldl min (xs.headD 0)

/-- `np.max` over a (nonempty) array, as a fold. -/
def listMax (xs : List ℚ) : ℚ := xs.foldl max (xs.headD 0)

/-- Result of `calculate_macroscopic_quantities`: the three unit-converted
grids plus the bin-start vectors `t_bins[:-1]` and `x_bins[:-1]`. -/
structure AggOut where
  density : List (List ℚ)
  flow : List (List ℚ)
  speed : List (List ℚ)
  tBins : List ℚ
  xBins : List ℚ
deriving DecidableEq, Repr

/-- `calculate_macroscopic_quantities(trajectories, dx, dt, total_length)`
(lines 61-146).  Failure modes mirror the Python exceptions raised by the
underlying numpy operations, in program order:
* no samples at all: `np.concatenate` / `np.min` raises `ValueError`;
* `dx = 0` (then `dt = 0`): `np.arange` raises `ZeroDivisionError`;
* a negative bin count: `np.zeros` raises `ValueError`. -/
def calcMacro (trs : List Traj) (dx dtm L : ℚ) : Except PyError AggOut :=
  let allT := (trs.map Traj.time).flatten
  if allT.isEmpty then .error .valueError
  else
    let tmin := listMin allT
    let tmax := listMax allT
    if dx = 0 then .error .zeroDivisionError
    else
      let nx := arangeLen 0 (L + dx) dx
      if dtm = 0 then .error .zeroDivisionError
      else
        let nt := arangeLen tmin (tmax + dtm) dtm
        if nt - 1 < 0 ∨ nx - 1 < 0 then .error .valueError
        else
          let numT := (nt - 1).toNat
          let numX := (nx - 1).toNat
          let raw := (List.range numT).map fun (ti : ℕ) =>
            (List.range numX).map fun (xi : ℕ) =>
              cellOut dx dtm
                (cellAcc trs L dtm (tmin + (ti : ℚ) * dtm) (tmin + ((ti : ℚ) + 1) * dtm)
                  ((xi : ℚ) * dx) (((xi : ℚ) + 1) * dx))
          .ok
            { density := raw.map fun row => row.map fun c => c.1 * 1000
              flow := raw.map fun row => row.map fun c => c.2.1 * 3600
              speed := raw.map fun row => row.map fun c => c.2.2 * (3.6 : ℚ)
              tBins := ((List.range nt.toNat).map fun (i : ℕ) => tmin + (i : ℚ) * dtm).dropLast
              xBins := ((List.range nx.toNat).map fun (j : ℕ) => (j : ℚ) * dx).dropLast }

/-! ### Trajectory reconstruction (`parse_fcd_file`, lines 7-59) -/

/-- A raw per-vehicle observation from the FCD stream. -/
structure RawRecord where
  time : ℚ
  lane : String
  rawPos : ℚ
  speed : ℚ
deriving DecidableEq, Repr

/-- Corridor-relative position (lines 22-27): on the connector lane `b_0` the
raw position is offset by the main-circle length `S`; any other lane is the
default, unshifted segment. -/
def segPos (S : ℚ) (r : RawRecord) : ℚ :=
  if r.lane = "b_0" then S + r.rawPos else r.rawPos

/-- The online wrap correction of lines 29-35: if the previous appended
position exceeds the new one by more than `L/2`, add one corridor length. -/
def onlineStep (L prev u : ℚ) : ℚ := if prev > u + L / 2 then u + L else u

/-- Online pass over the tail of a position list, carrying the previously
appended position. -/
def onlineAux (L : ℚ) (prev : ℚ) : List ℚ → List ℚ
  | [] => []
  | u :: us =>
    let p := onlineStep L prev u
    p :: onlineAux L p us

/-- The online pass of lines 29-40: the first sample of a vehicle is appended
unconditionally. -/
def onlinePass (L : ℚ) : List ℚ → List ℚ
  | [] => []
  | u :: us => u :: onlineAux L u us

/-- The second (post-hoc) pass of lines 54-57, carrying the final value of the
previous element and the cumulative lap offset already added to the current
suffix: `positions[i:] += total_length` whenever
`positions[i] < positions[i-1] - total_length/2`. -/
def secondAux (L : ℚ) (prev off : ℚ) : List ℚ → List ℚ
  | [] => []
  | p :: ps =>
    let p' := p + off
    if p' < prev - L / 2 then (p' + L) :: secondAux L (p' + L) (off + L) ps
    else p' :: secondAux L p' off ps

/-- The second pass of lines 54-57 (index 0 is never modified). -/
def secondPass (L : ℚ) : List ℚ → List ℚ
  | [] => []
  | p :: ps => p :: secondAux L p 0 ps

/-- Full per-vehicle position reconstruction: segment stitching, then the
online wrap pass, then the post-hoc lap-continuity pass.  The source hardcodes
`S = 901.53` and `L = 1000`; they are parameters here. -/
def reconPos (S L : ℚ) (recs : List RawRecord) : List ℚ :=
  secondPass L (onlinePass L (recs.map (segPos S)))

/-- The whole of `parse_fcd_file` on an already-grouped record stream: each
vehicle's records, in stream order, produce parallel time/pos/speed arrays. -/
def parseVehicle (S L : ℚ) (recs : List RawRecord) : Traj :=
  ⟨recs.map RawRecord.time, reconPos S L recs, recs.map RawRecord.speed⟩

/-- Group a flat record stream by vehicle id, preserving first-appearance
order of vehicles and stream order of each vehicle's records (the
`defaultdict` of line 9). -/
def groupById (recs : List (String × RawRecord)) : List (String × List RawRecord) :=
  recs.foldl
    (fun tbl r =>
      if tbl.any (fun e => e.1 = r.1) then
        tbl.map fun e => if e.1 = r.1 then (e.1, e.2 ++ [r.2]) else e
      else tbl ++ [(r.1, [r.2])])
    []

/-- `parse_fcd_file` on a flat stream of (vehicle id, record) pairs. -/
def parseFcd (S L : ℚ) (recs : List (String × RawRecord)) : List (String × Traj) :=
  (groupById recs).map fun e => (e.1, parseVehicle S L e.2)

/-! ### Constant-speed synthetic input for the lap-wrap property -/

/-- Continuous (ideal) position of the constant-speed vehicle at sample `k`:
`v * (k*Δt)`. -/
def cpos (v dt : ℚ) (k : ℕ) : ℚ := v * (k * dt)

/-- The corridor-wrapped raw coordinate of the constant-speed vehicle:
`cpos` reduced modulo the corridor length. -/
def wpos (v dt L : ℚ) (k : ℕ) : ℚ := rmod (cpos v dt k) L

/-- Encode a corridor coordinate `w ∈ [0, L)` as an FCD record of the two-lane
geometry: on `[0, S)` the vehicle reports lane `a_0` with raw position `w`;
on `[S, L)` it reports the connector lane `b_0` with raw position `w - S`. -/
def geomRecord (S : ℚ) (t w sp : ℚ) : RawRecord :=
  if w < S then ⟨t, "a_0", w, sp⟩ else ⟨t, "b_0", w - S, sp⟩

/-- The record stream of a vehicle entering at position 0 at time 0 and moving
at constant speed `v`, sampled every `dt` seconds, on the corridor geometry
`(S, L)`. -/
def constSpeedRecs (v dt L S : ℚ) (n : ℕ) : List RawRecord :=
  (List.range n).map fun (k : ℕ) => geomRecord S ((k : ℚ) * dt) (wpos v dt L k) v

/-- The online-pass value predicted for the constant-speed vehicle: the
wrapped coordinate, plus one corridor length once the first lap is complete. -/
def qpos (v dt L : ℚ) (k : ℕ) : ℚ := wpos v dt L k + (if L ≤ cpos v dt k then L else 0)

/-! ### State-threaded aggregator (for the read-only / idempotence property)

The Python aggregator reads the trajectory dictionary inside its cell loop;
every numpy operation it applies (`boolean-mask indexing`, `%`) allocates a
fresh array and writes nothing back.  To state the frame property we re-run
the same computation while explicitly threading the trajectory table through
every vehicle visit of every cell, so that the final table is whatever the
vehicle loop hands back. -/

/-- The vehicle loop of one cell, threading the trajectory table: each
vehicle's visit contributes its statistics and hands the vehicle record back
(numpy mask indexing and `%` return copies). -/
def cellAccSt (trs : List Traj) (L dtm t0 t1 x0 x1 : ℚ) : CellAcc × List Traj :=
  trs.foldl
    (fun st tr =>
      let s := vehCellStats L dtm t0 t1 x0 x1 tr
      (⟨st.1.timeSpent + s.timeSpent, st.1.dist + s.dist, st.1.crossed + s.crossed⟩,
       st.2 ++ [tr]))
    (⟨0, 0, 0⟩, [])

/-- The cell loop, threading the trajectory table through every cell in
row-major order. -/
def gridSt (trs : List Traj) (L dtm dx tmin : ℚ) (numT numX : ℕ) :
    List (List (ℚ × ℚ × ℚ)) × List Traj :=
  (List.range numT).foldl
    (fun st (ti : ℕ) =>
      let rowSt := (List.range numX).foldl
        (fun st2 (xi : ℕ) =>
          let c := cellAccSt st2.2 L dtm (tmin + (ti : ℚ) * dtm) (tmin + ((ti : ℚ) + 1) * dtm)
            ((xi : ℚ) * dx) (((xi : ℚ) + 1) * dx)
          (st2.1 ++ [cellOut dx dtm c.1], c.2))
        (([] : List (ℚ × ℚ × ℚ)), st.2)
      (st.1 ++ [rowSt.1], rowSt.2))
    (([] : List (List (ℚ × ℚ × ℚ))), trs)

/-- `calculate_macroscopic_quantities` with the trajectory table explicitly
threaded through the aggregation pass; the second component is the table as
it stands when the pass finishes. -/
def calcMacroSt (trs : List Traj) (dx dtm L : ℚ) : Except PyError AggOut × List Traj :=
  let allT := (trs.map Traj.time).flatten
  if allT.isEmpty then (.error .valueError, trs)
  else
    let tmin := listMin allT
    let tmax := listMax allT
    if dx = 0 then (.error .zeroDivisionError, trs)
    else
      let nx := arangeLen 0 (L + dx) dx
      if dtm = 0 then (.error .zeroDivisionError, trs)
      else
        let nt := arangeLen tmin (tmax + dtm) dtm
        if nt - 1 < 0 ∨ nx - 1 < 0 then (.error .valueError, trs)
        else
          let numT := (nt - 1).toNat
          let numX := (nx - 1).toNat
          let g := gridSt trs L dtm dx tmin numT numX
          (.ok
            { density := g.1.map fun row => row.map fun c => c.1 * 1000
              flow := g.1.map fun row => row.map fun c => c.2.1 * 3600
              speed := g.1.map fun row => row.map fun c => c.2.2 * (3.6 : ℚ)
              tBins := ((List.range nt.toNat).map fun (i : ℕ) => tmin + (i : ℚ) * dtm).dropLast
              xBins := ((List.range nx.toNat).map fun (j : ℕ) => (j : ℚ) * dx).dropLast },
           g.2)

/-! ### Concrete inputs used by the claim instances -/

/-- The concrete scenario of the specification, sampled every 5 seconds: one
vehicle on `L = 1000`, entering at `t = 0, pos = 0`, constant speed 10 m/s,
observed for `t ∈ [0, 100]` (positions `50k` at times `5k`). -/
def c2Table : List Traj :=
  [⟨[0, 5, 10, 15, 20, 25, 30, 35, 40, 45, 50, 55, 60, 65, 70, 75, 80, 85, 90, 95, 100],
    [0, 50, 100, 150, 200, 250, 300, 350, 400, 450, 500, 550, 600, 650, 700, 750, 800,
     850, 900, 950, 1000],
    [10, 10, 10, 10, 10, 10, 10, 10, 10, 10, 10, 10, 10, 10, 10, 10, 10, 10, 10, 10, 10]⟩]

/-- What the aggregator actually returns on `c2Table` with
`dx = dt = 100, L = 1000`. -/
def c2Actual : AggOut :=
  { density := [[10, 1/2, 1/2, 1/2, 1/2, 1/2, 1/2, 1/2, 1/2, 1/2]]
    flow := [[36, 0, 0, 0, 0, 0, 0, 0, 0, 0]]
    speed := [[0, 36, 36, 36, 36, 36, 36, 36, 36, 36]]
    tBins := [0]
    xBins := [0, 100, 200, 300, 400, 500, 600, 700, 800, 900] }

/-- A two-sample single-vehicle table on a short corridor, used to exhibit an
untouched cell. -/
def c7Table : List Traj := [⟨[0, 10], [0, 5], [0, 0]⟩]

/-- The aggregator's output on `c7Table` with `dx = dt = 10, L = 20`. -/
def c7Out : AggOut :=
  { density := [[100, 0]]
    flow := [[360, 0]]
    speed := [[9/5, 0]]
    tBins := [0]
    xBins := [0, 10] }

end Edies

namespace Edies

/-! ## Claim C1: crossing-count condition -/

/-- C1 (counterexample). A vehicle with margin-window samples at wrapped
positions 5 and 25 and the cell `[10, 20)`: both boundary interpolations are
defined (25 ≥ 20 ≥ 10 ≥ 5 lies on the sampled range), yet the code does not
increment the crossing count, because no wrapped sample falls inside
`[10, 20)`; so the increment is neither "precisely when neither interpolated
time is undefined" nor independent of in-cell presence. -/
theorem C1_counterexample :
    1 < (marginTimes 10 0 10 ⟨[0, 10], [5, 25], [0, 0]⟩).length ∧
    interpUndef 10 (wrappedPos 1000 10 0 10 ⟨[0, 10], [5, 25], [0, 0]⟩) = false ∧
    interpUndef 20 (wrappedPos 1000 10 0 10 ⟨[0, 10], [5, 25], [0, 0]⟩) = false ∧
    (vehCellStats 1000 10 0 10 10 20 ⟨[0, 10], [5, 25], [0, 0]⟩).crossed = 0 := by
  norm_num [vehCellStats, cellSamples, marginTimes, marginSamples, wrappedPos, rmod,
    interpUndef, List.cons_ne_nil]

/-- C1 (amended). For a vehicle whose margin-restricted window has at least
two samples, the cell's crossing count is incremented by exactly one
precisely when at least one wrapped sample lies in `[x0, x1)` and at least
one of the two boundary interpolations is defined (not both NaN). -/
theorem C1_amended (L dtm t0 t1 x0 x1 : ℚ) (tr : Traj)
    (h : 1 < (marginTimes dtm t0 t1 tr).length) :
    (vehCellStats L dtm t0 t1 x0 x1 tr).crossed =
      if cellSamples L dtm t0 t1 x0 x1 tr ≠ [] ∧
          ¬(interpUndef x0 (wrappedPos L dtm t0 t1 tr) = true ∧
            interpUndef x1 (wrappedPos L dtm t0 t1 tr) = true)
        then 1 else 0 := by
  simp only [vehCellStats]
  rw [if_pos h]
  by_cases hc : cellSamples L dtm t0 t1 x0 x1 tr = []
  · simp [hc]
  · rw [if_neg hc]
    by_cases h0 : interpUndef x0 (wrappedPos L dtm t0 t1 tr) = true
    · by_cases h1 : interpUndef x1 (wrappedPos L dtm t0 t1 tr) = true
      · simp [hc, h0, h1]
      · simp [hc, h0, h1]
    · simp [hc, h0]

/-- C1 (witness): a vehicle with wrapped samples 5 and 15 against the cell
`[10, 20)` has an in-cell sample and one defined boundary interpolation, so
it is counted as a crossing. -/
theorem C1_witness :
    (vehCellStats 1000 10 0 10 10 20 ⟨[0, 10], [5, 15], [0, 0]⟩).crossed = 1 := by
  rw [C1_amended 1000 10 0 10 10 20 ⟨[0, 10], [5, 15], [0, 0]⟩
    (by norm_num [marginTimes, marginSamples])]
  norm_num [cellSamples, marginTimes, marginSamples, wrappedPos, rmod, interpUndef,
    List.cons_ne_nil]

/-! ## Claim C4: distance accumulation condition -/

/-- C4 (counterexample). A vehicle whose two in-cell samples lie in the time
margin after the window (`times 15, 16` against `[0, 10)`): the distance
quantity `min(x1, last) - max(x0, first) = 6` is positive, yet nothing is
added to the distance accumulator, because `time_in_cell = -5` is not
positive and the distance branch is nested inside `time_in_cell > 0`. -/
theorem C4_counterexample :
    1 < (marginTimes 10 0 10 ⟨[15, 16], [12, 18], [0, 0]⟩).length ∧
    cellSamples 1000 10 0 10 10 20 ⟨[15, 16], [12, 18], [0, 0]⟩ ≠ [] ∧
    cellDist 1000 10 0 10 10 20 ⟨[15, 16], [12, 18], [0, 0]⟩ = 6 ∧
    (vehCellStats 1000 10 0 10 10 20 ⟨[15, 16], [12, 18], [0, 0]⟩).dist = 0 := by
  norm_num [vehCellStats, cellSamples, cellDist, cellTimeIn, marginTimes, marginSamples,
    wrappedPos, rmod, interpUndef, List.cons_ne_nil]

/-- C4 (amended). The quantity `min(x1, last in-cell pos) - max(x0, first
in-cell pos)` is added to the cell's distance accumulator precisely when the
in-cell sample list is nonempty, `time_in_cell` is positive, and the quantity
itself is positive — the positivity of the quantity alone is not sufficient. -/
theorem C4_amended (L dtm t0 t1 x0 x1 : ℚ) (tr : Traj)
    (h : 1 < (marginTimes dtm t0 t1 tr).length) :
    (vehCellStats L dtm t0 t1 x0 x1 tr).dist =
      if cellSamples L dtm t0 t1 x0 x1 tr ≠ [] ∧
          0 < cellTimeIn L dtm t0 t1 x0 x1 tr ∧ 0 < cellDist L dtm t0 t1 x0 x1 tr
        then cellDist L dtm t0 t1 x0 x1 tr else 0 := by
  simp only [vehCellStats]
  rw [if_pos h]
  by_cases hc : cellSamples L dtm t0 t1 x0 x1 tr = []
  · simp [hc]
  · rw [if_neg hc]
    by_cases ht : 0 < cellTimeIn L dtm t0 t1 x0 x1 tr
    · by_cases hd : 0 < cellDist L dtm t0 t1 x0 x1 tr
      · simp [hc, ht, hd]
      · simp [hc, ht, hd]
    · simp [hc, ht]

/-- C4 (witness): a vehicle occupying the cell `[0, 10) × [0, 10)` with
positive in-cell time and positive distance quantity 5 contributes exactly
that distance. -/
theorem C4_witness :
    (vehCellStats 20 10 0 10 0 10 ⟨[0, 10], [0, 5], [0, 0]⟩).dist = 5 := by
  rw [C4_amended 20 10 0 10 0 10 ⟨[0, 10], [0, 5], [0, 0]⟩
    (by norm_num [marginTimes, marginSamples])]
  norm_num [cellSamples, cellDist, cellTimeIn, marginTimes, marginSamples, wrappedPos,
    rmod, interpUndef, List.cons_ne_nil]

end Edies




namespace Edies

/-! ## Claims C9 and C10: frame property and speed-insensitivity -/

theorem foldl_prod_split {α β : Type} (f : β → α → β) (xs : List α) :
    ∀ (b : β) (acc : List α),
      xs.foldl (fun st x => (f st.1 x, st.2 ++ [x])) (b, acc) = (xs.foldl f b, acc ++ xs) := by
  induction xs with
  | nil => simp
  | cons x xs ih =>
    intro b acc
    simp only [List.foldl_cons, ih, List.append_assoc, List.singleton_append]

theorem cellAccSt_eq (trs : List Traj) (L dtm t0 t1 x0 x1 : ℚ) :
    cellAccSt trs L dtm t0 t1 x0 x1 = (cellAcc trs L dtm t0 t1 x0 x1, trs) := by
  have h := foldl_prod_split
    (fun acc tr =>
      let s := vehCellStats L dtm t0 t1 x0 x1 tr
      (⟨acc.timeSpent + s.timeSpent, acc.dist + s.dist, acc.crossed + s.crossed⟩ : CellAcc))
    trs ⟨0, 0, 0⟩ []
  simpa [cellAccSt, cellAcc] using h

theorem rowFold_eq (L dtm dx ta tb : ℚ) (xs : List ℕ) :
    ∀ (b : List (ℚ × ℚ × ℚ)) (t : List Traj),
      xs.foldl
        (fun (st2 : List (ℚ × ℚ × ℚ) × List Traj) (xi : ℕ) =>
          let c := cellAccSt st2.2 L dtm ta tb ((xi : ℚ) * dx) (((xi : ℚ) + 1) * dx)
          (st2.1 ++ [cellOut dx dtm c.1], c.2))
        (b, t) =
      (b ++ xs.map fun (xi : ℕ) =>
          cellOut dx dtm (cellAcc t L dtm ta tb ((xi : ℚ) * dx) (((xi : ℚ) + 1) * dx)),
       t) := by
  induction xs with
  | nil => simp
  | cons x xs ih =>
    intro b t
    simp only [List.foldl_cons]
    rw [cellAccSt_eq]
    rw [ih]
    simp

theorem gridFold_eq (trs : List Traj) (L dtm dx tmin : ℚ) (numX : ℕ) (ts : List ℕ) :
    ∀ (b : List (List (ℚ × ℚ × ℚ))),
      ts.foldl
        (fun (st : List (List (ℚ × ℚ × ℚ)) × List Traj) (ti : ℕ) =>
          let rowSt := (List.range numX).foldl
            (fun (st2 : List (ℚ × ℚ × ℚ) × List Traj) (xi : ℕ) =>
              let c := cellAccSt st2.2 L dtm (tmin + (ti : ℚ) * dtm)
                (tmin + ((ti : ℚ) + 1) * dtm) ((xi : ℚ) * dx) (((xi : ℚ) + 1) * dx)
              (st2.1 ++ [cellOut dx dtm c.1], c.2))
            (([] : List (ℚ × ℚ × ℚ)), st.2)
          (st.1 ++ [rowSt.1], rowSt.2))
        (b, trs) =
      (b ++ ts.map fun (ti : ℕ) =>
          (List.range numX).map fun (xi : ℕ) =>
            cellOut dx dtm
              (cellAcc trs L dtm (tmin + (ti : ℚ) * dtm) (tmin + ((ti : ℚ) + 1) * dtm)
                ((xi : ℚ) * dx) (((xi : ℚ) + 1) * dx)),
       trs) := by
  induction ts with
  | nil => simp
  | cons t ts ih =>
    intro b
    simp only [List.foldl_cons]
    rw [rowFold_eq]
    rw [ih]
    simp

theorem gridSt_eq (trs : List Traj) (L dtm dx tmin : ℚ) (numT numX : ℕ) :
    gridSt trs L dtm dx tmin numT numX =
      ((List.range numT).map fun (ti : ℕ) =>
        (List.range numX).map fun (xi : ℕ) =>
          cellOut dx dtm
            (cellAcc trs L dtm (tmin + (ti : ℚ) * dtm) (tmin + ((ti : ℚ) + 1) * dtm)
              ((xi : ℚ) * dx) (((xi : ℚ) + 1) * dx)),
       trs) := by
  have h := gridFold_eq trs L dtm dx tmin numX (List.range numT) []
  simpa [gridSt] using h

theorem calcMacroSt_eq (trs : List Traj) (dx dtm L : ℚ) :
    calcMacroSt trs dx dtm L = (calcMacro trs dx dtm L, trs) := by
  unfold calcMacroSt calcMacro
  by_cases h1 : ((trs.map Traj.time).flatten).isEmpty
  · simp [h1]
  · by_cases h2 : dx = 0
    · simp [h1, h2]
    · by_cases h3 : dtm = 0
      · simp [h1, h2, h3]
      · by_cases h4 :
          arangeLen (listMin ((trs.map Traj.time).flatten))
              (listMax ((trs.map Traj.time).flatten) + dtm) dtm < 1 ∨
            arangeLen 0 (L + dx) dx < 1
        · simp [h1, h2, h3, sub_neg, h4]
        · simp [h1, h2, h3, sub_neg, h4, gridSt_eq]

/-- C9. Aggregation leaves the trajectory table unchanged (every numpy
operation the vehicle loop applies returns a fresh array, nothing is written
back), and re-running the aggregator on the table it hands back produces the
identical result. -/
theorem C9_readonly_idempotent (trs : List Traj) (dx dtm L : ℚ) :
    (calcMacroSt trs dx dtm L).2 = trs ∧
    (calcMacroSt ((calcMacroSt trs dx dtm L).2) dx dtm L).1 =
      (calcMacroSt trs dx dtm L).1 := by
  simp [calcMacroSt_eq]

theorem marginSamples_tp {a b : Traj} (dtm t0 t1 : ℚ) (h1 : a.time = b.time)
    (h2 : a.pos = b.pos) : marginSamples dtm t0 t1 a = marginSamples dtm t0 t1 b := by
  unfold marginSamples
  rw [h1, h2]

theorem vehCellStats_tp {a b : Traj} (L dtm t0 t1 x0 x1 : ℚ) (h1 : a.time = b.time)
    (h2 : a.pos = b.pos) :
    vehCellStats L dtm t0 t1 x0 x1 a = vehCellStats L dtm t0 t1 x0 x1 b := by
  simp only [vehCellStats, marginTimes, wrappedPos, cellSamples, cellTimeIn, cellDist,
    marginSamples_tp dtm t0 t1 h1 h2]

theorem cellAcc_fold_tp {T1 T2 : List Traj}
    (h : List.Forall₂ (fun a b => a.time = b.time ∧ a.pos = b.pos) T1 T2)
    (L dtm t0 t1 x0 x1 : ℚ) :
    ∀ init : CellAcc,
      T1.foldl
        (fun acc tr =>
          let s := vehCellStats L dtm t0 t1 x0 x1 tr
          ⟨acc.timeSpent + s.timeSpent, acc.dist + s.dist, acc.crossed + s.crossed⟩) init =
      T2.foldl
        (fun acc tr =>
          let s := vehCellStats L dtm t0 t1 x0 x1 tr
          ⟨acc.timeSpent + s.timeSpent, acc.dist + s.dist, acc.crossed + s.crossed⟩) init := by
  induction h with
  | nil => intro init; rfl
  | cons ha hl ih =>
    intro init
    simp only [List.foldl_cons]
    rw [vehCellStats_tp L dtm t0 t1 x0 x1 ha.1 ha.2]
    exact ih _

theorem cellAcc_tp {T1 T2 : List Traj}
    (h : List.Forall₂ (fun a b => a.time = b.time ∧ a.pos = b.pos) T1 T2) :
    ∀ (L dtm t0 t1 x0 x1 : ℚ),
      cellAcc T1 L dtm t0 t1 x0 x1 = cellAcc T2 L dtm t0 t1 x0 x1 := by
  intro L dtm t0 t1 x0 x1
  unfold cellAcc
  exact cellAcc_fold_tp h L dtm t0 t1 x0 x1 ⟨0, 0, 0⟩

theorem times_tp {T1 T2 : List Traj}
    (h : List.Forall₂ (fun a b => a.time = b.time ∧ a.pos = b.pos) T1 T2) :
    T1.map Traj.time = T2.map Traj.time := by
  induction h with
  | nil => rfl
  | cons ha hl ih => simp [ha.1, ih]

/-- C10. The per-sample speed values have no influence on the aggregator:
two trajectory tables that agree on times and positions (vehicle by vehicle,
speeds arbitrary) produce identical density, flow and speed grids and
identical bin-start vectors. -/
theorem C10_speed_irrelevant (T1 T2 : List Traj) (dx dtm L : ℚ)
    (h : List.Forall₂ (fun a b => a.time = b.time ∧ a.pos = b.pos) T1 T2) :
    calcMacro T1 dx dtm L = calcMacro T2 dx dtm L := by
  unfold calcMacro
  rw [times_tp h]
  simp only [cellAcc_tp h]

/-- C10 (witness): two single-vehicle tables differing only in the recorded
speeds yield the same aggregator output. -/
theorem C10_witness :
    calcMacro [⟨[0, 10], [0, 5], [1, 2]⟩] 10 10 20 =
      calcMacro [⟨[0, 10], [0, 5], [7, 9]⟩] 10 10 20 :=
  C10_speed_irrelevant [⟨[0, 10], [0, 5], [1, 2]⟩] [⟨[0, 10], [0, 5], [7, 9]⟩] 10 10 20
    (List.Forall₂.cons ⟨rfl, rfl⟩ List.Forall₂.nil)

end Edies

namespace Edies

/-! ## Claims C5 and C6: degenerate grid parameters and empty input -/

theorem foldl_min_le (xs : List ℚ) : ∀ a : ℚ, xs.foldl min a ≤ a := by
  induction xs with
  | nil => intro a; exact le_refl a
  | cons x xs ih => intro a; exact le_trans (ih (min a x)) (min_le_left a x)

theorem le_foldl_max (xs : List ℚ) : ∀ a : ℚ, a ≤ xs.foldl max a := by
  induction xs with
  | nil => intro a; exact le_refl a
  | cons x xs ih => intro a; exact le_trans (le_max_left a x) (ih (max a x))

theorem listMin_le_listMax (xs : List ℚ) : listMin xs ≤ listMax xs :=
  le_trans (foldl_min_le xs (xs.headD 0)) (le_foldl_max xs (xs.headD 0))

/-- C5 (counterexample). With `dx = -1500 < -L` the aggregator does not fail
at all: `np.arange(0, L + dx, dx)` yields the single bin edge `[0]`, the grid
has zero spatial cells, and the call returns empty arrays successfully. -/
theorem C5_counterexample :
    calcMacro [⟨[0, 100], [0, 5], [0, 0]⟩] (-1500) 10 1000 =
      .ok { density := [[], [], [], [], [], [], [], [], [], []]
            flow := [[], [], [], [], [], [], [], [], [], []]
            speed := [[], [], [], [], [], [], [], [], [], []]
            tBins := [0, 10, 20, 30, 40, 50, 60, 70, 80, 90]
            xBins := [] } := by
  norm_num [calcMacro, listMin, listMax, arangeLen,
    show ⌈(1 : ℚ) / 3⌉ = 1 from by norm_num [Int.ceil_eq_iff],
    show ⌈(11 : ℚ)⌉ = 11 from by norm_num,
    show List.range 10 = [0, 1, 2, 3, 4, 5, 6, 7, 8, 9] from rfl,
    show List.range 11 = [0, 1, 2, 3, 4, 5, 6, 7, 8, 9, 10] from rfl,
    show List.range 1 = [0] from rfl, List.dropLast, AggOut.mk.injEq,
    show Int.toNat 10 = 10 from rfl, List.replicate]

/-- C5 (amended). No InvalidConfiguration check exists.  For `dx <= 0` or
`dt <= 0` (with a positive corridor length) the aggregator either fails with
the ZeroDivisionError of a zero-step `np.arange` (`dx = 0` or `dt = 0`), or
fails with the ValueError of `np.zeros` on a negative dimension, or — when
the stop of the range lies strictly on the far side of the start — returns
successfully with a grid containing no cells at all. -/
theorem C5_amended (trs : List Traj) (dx dtm L : ℚ) (hL : 0 < L)
    (hd : dx ≤ 0 ∨ dtm ≤ 0) :
    calcMacro trs dx dtm L = .error .zeroDivisionError ∨
    calcMacro trs dx dtm L = .error .valueError ∨
    ∃ out, calcMacro trs dx dtm L = .ok out ∧ ∀ row ∈ out.density, row = [] := by
  by_cases h1 : ((trs.map Traj.time).flatten).isEmpty
  · right; left
    simp only [calcMacro]
    rw [if_pos h1]
  · by_cases h2 : dx = 0
    · left
      simp only [calcMacro]
      rw [if_neg h1, if_pos h2]
    · by_cases h3 : dtm = 0
      · left
        simp only [calcMacro]
        rw [if_neg h1, if_neg h2, if_pos h3]
      · by_cases h4 :
          arangeLen (listMin ((trs.map Traj.time).flatten))
              (listMax ((trs.map Traj.time).flatten) + dtm) dtm - 1 < 0 ∨
            arangeLen 0 (L + dx) dx - 1 < 0
        · right; left
          simp only [calcMacro]
          rw [if_neg h1, if_neg h2, if_neg h3, if_pos h4]
        · right; right
          simp only [calcMacro]
          rw [if_neg h1, if_neg h2, if_neg h3, if_neg h4]
          refine ⟨_, rfl, ?_⟩
          rcases hd with hdx | hdt
          · -- dx < 0: at most one spatial bin edge, hence zero cells per row
            have hdx' : dx < 0 := lt_of_le_of_ne hdx h2
            have hceil : ⌈(L + dx - 0) / dx⌉ ≤ 1 := by
              rw [Int.ceil_le]
              push_cast
              rw [div_le_iff_of_neg hdx']
              linarith
            have hnx : arangeLen 0 (L + dx) dx ≤ 1 := by
              unfold arangeLen
              exact max_le hceil (by norm_num)
            have hnumX : (arangeLen 0 (L + dx) dx - 1).toNat = 0 := by omega
            intro row hrow
            simp only [List.map_map] at hrow
            rw [List.mem_map] at hrow
            obtain ⟨t, _, rfl⟩ := hrow
            simp [hnumX]
          · -- dt < 0: at most one temporal bin edge, hence no rows at all
            have hdt' : dtm < 0 := lt_of_le_of_ne hdt h3
            have hceil : ⌈(listMax ((trs.map Traj.time).flatten) + dtm -
                listMin ((trs.map Traj.time).flatten)) / dtm⌉ ≤ 1 := by
              rw [Int.ceil_le]
              push_cast
              rw [div_le_iff_of_neg hdt']
              have := listMin_le_listMax ((trs.map Traj.time).flatten)
              linarith
            have hnumT :
                (arangeLen (listMin ((trs.map Traj.time).flatten))
                  (listMax ((trs.map Traj.time).flatten) + dtm) dtm - 1).toNat = 0 := by
              have hnt :
                  arangeLen (listMin ((trs.map Traj.time).flatten))
                    (listMax ((trs.map Traj.time).flatten) + dtm) dtm ≤ 1 := by
                unfold arangeLen
                exact max_le hceil (by norm_num)
              omega
            intro row hrow
            rw [hnumT] at hrow
            simp at hrow

/-- C5 (witness): with `dx = -10` (and a nonempty table, `L = 1000`) the
amended degenerate-parameter trichotomy holds. -/
theorem C5_witness :
    calcMacro [⟨[0, 100], [0, 5], [0, 0]⟩] (-10) 10 1000 = .error .zeroDivisionError ∨
    calcMacro [⟨[0, 100], [0, 5], [0, 0]⟩] (-10) 10 1000 = .error .valueError ∨
    ∃ out, calcMacro [⟨[0, 100], [0, 5], [0, 0]⟩] (-10) 10 1000 = .ok out ∧
      ∀ row ∈ out.density, row = [] :=
  C5_amended [⟨[0, 100], [0, 5], [0, 0]⟩] (-10) 10 1000 (by norm_num)
    (Or.inl (by norm_num))

/-- C6 (counterexample). On the empty trajectory table the aggregator fails
with the ValueError that `np.concatenate` raises on an empty array list — not
with an InsufficientData error (no such check exists in the code). -/
theorem C6_counterexample :
    calcMacro [] 10 10 1000 = .error .valueError ∧
    calcMacro [] 10 10 1000 ≠ .error .insufficientData := by
  refine ⟨rfl, ?_⟩
  intro h
  rw [show calcMacro [] 10 10 1000 = .error .valueError from rfl] at h
  injection h with h2
  exact PyError.noConfusion h2

/-- C6 (amended). On the empty trajectory table the aggregator fails before
computing any grid — with the ValueError of concatenating zero sample arrays,
since the time range is derived from the observed samples — and the
reconstructor on an empty record stream returns an empty trajectory table. -/
theorem C6_amended (dx dtm L S Lr : ℚ) :
    calcMacro [] dx dtm L = .error .valueError ∧ parseFcd S Lr [] = [] :=
  ⟨rfl, rfl⟩

end Edies

namespace Edies

/-! ## Claim C7: empty-cell convention -/

theorem dropLast_map_range {α : Type} (f : ℕ → α) (n : ℕ) :
    ((List.range n).map f).dropLast = (List.range (n - 1)).map f := by
  cases n with
  | zero => simp
  | succ m =>
    rw [List.range_succ, List.map_append, List.map_singleton, List.dropLast_concat]
    simp

theorem getD_map_range {α : Type} (f : ℕ → α) (n i : ℕ) (d : α) (h : i < n) :
    ((List.range n).map f).getD i d = f i := by
  rw [List.getD_eq_getElem?_getD, List.getElem?_map, List.getElem?_range h]
  rfl

theorem gridEntry_eq {α β : Type} (g : ℕ → ℕ → α) (f : α → β) (nT nX ti xi : ℕ)
    (d : β) (hti : ti < nT) (hxi : xi < nX) :
    ((((List.range nT).map fun t => (List.range nX).map fun x => g t x).map
        fun row => row.map f).getD ti []).getD xi d = f (g ti xi) := by
  rw [List.map_map]
  rw [getD_map_range _ _ _ _ hti]
  simp only [Function.comp_apply, List.map_map]
  rw [getD_map_range _ _ _ _ hxi]
  simp

theorem vehCellStats_nil {L dtm t0 t1 x0 x1 : ℚ} {tr : Traj}
    (h : cellSamples L dtm t0 t1 x0 x1 tr = []) :
    vehCellStats L dtm t0 t1 x0 x1 tr = ⟨0, 0, 0⟩ := by
  simp only [vehCellStats]
  by_cases hl : 1 < (marginTimes dtm t0 t1 tr).length
  · rw [if_pos hl, if_pos h]
  · rw [if_neg hl]

theorem cellAcc_fold_zero (L dtm t0 t1 x0 x1 : ℚ) :
    ∀ (trs : List Traj), (∀ tr ∈ trs, cellSamples L dtm t0 t1 x0 x1 tr = []) →
    ∀ init : CellAcc,
      trs.foldl
        (fun acc tr =>
          let s := vehCellStats L dtm t0 t1 x0 x1 tr
          ⟨acc.timeSpent + s.timeSpent, acc.dist + s.dist, acc.crossed + s.crossed⟩)
        init = init := by
  intro trs
  induction trs with
  | nil => intro _ init; rfl
  | cons a l ih =>
    intro h init
    simp only [List.foldl_cons, vehCellStats_nil (h a (by simp)), add_zero]
    exact ih (fun tr htr => h tr (List.mem_cons_of_mem a htr)) init

theorem cellAcc_zero {L dtm t0 t1 x0 x1 : ℚ} (trs : List Traj)
    (h : ∀ tr ∈ trs, cellSamples L dtm t0 t1 x0 x1 tr = []) :
    cellAcc trs L dtm t0 t1 x0 x1 = ⟨0, 0, 0⟩ := by
  unfold cellAcc
  exact cellAcc_fold_zero L dtm t0 t1 x0 x1 trs h ⟨0, 0, 0⟩

/-- C7. Empty-cell convention: whenever the aggregator returns a grid, a cell
whose accumulated `time_spent` is zero has speed exactly 0 (by substitution,
not division), and a cell touched by no vehicle sample has density, flow and
speed exactly 0 — no NaN and no exception arises from the in-cell divisions,
which are guarded. -/
theorem C7_empty_cell (trs : List Traj) (dx dtm L : ℚ) (out : AggOut) (ti xi : ℕ)
    (hok : calcMacro trs dx dtm L = .ok out)
    (hti : ti < out.tBins.length) (hxi : xi < out.xBins.length) :
    ((cellAcc trs L dtm (out.tBins.getD ti 0) (out.tBins.getD ti 0 + dtm)
        (out.xBins.getD xi 0) (out.xBins.getD xi 0 + dx)).timeSpent = 0 →
      (out.speed.getD ti []).getD xi 0 = 0) ∧
    ((∀ tr ∈ trs, cellSamples L dtm (out.tBins.getD ti 0) (out.tBins.getD ti 0 + dtm)
        (out.xBins.getD xi 0) (out.xBins.getD xi 0 + dx) tr = []) →
      (out.density.getD ti []).getD xi 0 = 0 ∧
      (out.flow.getD ti []).getD xi 0 = 0 ∧
      (out.speed.getD ti []).getD xi 0 = 0) := by
  by_cases h1 : ((trs.map Traj.time).flatten).isEmpty
  · simp only [calcMacro] at hok
    rw [if_pos h1] at hok
    exact Except.noConfusion hok
  by_cases h2 : dx = 0
  · simp only [calcMacro] at hok
    rw [if_neg h1, if_pos h2] at hok
    exact Except.noConfusion hok
  by_cases h3 : dtm = 0
  · simp only [calcMacro] at hok
    rw [if_neg h1, if_neg h2, if_pos h3] at hok
    exact Except.noConfusion hok
  by_cases h4 : arangeLen (listMin ((trs.map Traj.time).flatten))
      (listMax ((trs.map Traj.time).flatten) + dtm) dtm - 1 < 0 ∨
    arangeLen 0 (L + dx) dx - 1 < 0
  · simp only [calcMacro] at hok
    rw [if_neg h1, if_neg h2, if_neg h3, if_pos h4] at hok
    exact Except.noConfusion hok
  simp only [calcMacro] at hok
  rw [if_neg h1, if_neg h2, if_neg h3, if_neg h4] at hok
  injection hok with h
  subst h
  simp only [dropLast_map_range, List.length_map, List.length_range] at hti hxi
  have hti' : ti <
      (arangeLen (listMin ((trs.map Traj.time).flatten))
        (listMax ((trs.map Traj.time).flatten) + dtm) dtm - 1).toNat := by omega
  have hxi' : xi < (arangeLen 0 (L + dx) dx - 1).toNat := by omega
  simp only [dropLast_map_range]
  rw [getD_map_range _ _ ti (0 : ℚ) (by omega), getD_map_range _ _ xi (0 : ℚ) (by omega)]
  rw [gridEntry_eq _ _ _ _ _ _ _ hti' hxi', gridEntry_eq _ _ _ _ _ _ _ hti' hxi',
    gridEntry_eq _ _ _ _ _ _ _ hti' hxi']
  rw [show listMin ((trs.map Traj.time).flatten) + ((ti : ℚ) + 1) * dtm =
      listMin ((trs.map Traj.time).flatten) + (ti : ℚ) * dtm + dtm from by ring,
    show ((xi : ℚ) + 1) * dx = (xi : ℚ) * dx + dx from by ring]
  constructor
  · intro hts
    simp only [cellOut]
    rw [hts]
    norm_num
  · intro hemp
    rw [cellAcc_zero trs hemp]
    simp only [cellOut]
    refine ⟨?_, ?_, ?_⟩
    · split <;> simp
    · split <;> simp
    · split <;> simp

theorem c7_cell0 : cellAcc [⟨[0, 10], [0, 5], [0, 0]⟩] 20 10 0 10 0 10 = ⟨10, 5, 1⟩ := by
  norm_num [cellAcc, vehCellStats, marginTimes, marginSamples, wrappedPos,
    cellSamples, cellTimeIn, cellDist, rmod, interpUndef, List.cons_ne_nil]

theorem c7_cell1 : cellAcc [⟨[0, 10], [0, 5], [0, 0]⟩] 20 10 0 10 10 20 = ⟨0, 0, 0⟩ := by
  norm_num [cellAcc, vehCellStats, marginTimes, marginSamples, wrappedPos,
    cellSamples, cellTimeIn, cellDist, rmod, interpUndef, List.cons_ne_nil]

set_option maxHeartbeats 1000000 in
theorem c7_eval : calcMacro c7Table 10 10 20 = .ok c7Out := by
  norm_num [calcMacro, c7Table, c7Out, listMin, listMax, arangeLen, cellOut,
    c7_cell0, c7_cell1, List.dropLast, AggOut.mk.injEq,
    show ⌈(3 : ℚ)⌉ = 3 from by norm_num,
    show ⌈(2 : ℚ)⌉ = 2 from by norm_num,
    show Int.toNat 1 = 1 from rfl,
    show Int.toNat 2 = 2 from rfl,
    show Int.toNat 3 = 3 from rfl,
    show List.range 1 = [0] from rfl,
    show List.range 2 = [0, 1] from rfl,
    show List.range 3 = [0, 1, 2] from rfl]

/-- C7 (witness): on a two-sample table the returned grid's untouched cell
(0,1) has density, flow and speed 0, and its zero-time-spent speed entry is 0. -/
theorem C7_witness :
    ((cellAcc c7Table 20 10 (c7Out.tBins.getD 0 0) (c7Out.tBins.getD 0 0 + 10)
        (c7Out.xBins.getD 1 0) (c7Out.xBins.getD 1 0 + 10)).timeSpent = 0 →
      (c7Out.speed.getD 0 []).getD 1 0 = 0) ∧
    ((∀ tr ∈ c7Table, cellSamples 20 10 (c7Out.tBins.getD 0 0) (c7Out.tBins.getD 0 0 + 10)
        (c7Out.xBins.getD 1 0) (c7Out.xBins.getD 1 0 + 10) tr = []) →
      (c7Out.density.getD 0 []).getD 1 0 = 0 ∧
      (c7Out.flow.getD 0 []).getD 1 0 = 0 ∧
      (c7Out.speed.getD 0 []).getD 1 0 = 0) :=
  C7_empty_cell c7Table 10 10 20 c7Out 0 1 c7_eval
    (by norm_num [c7Out]) (by norm_num [c7Out])

end Edies

namespace Edies

/-! ## Claim C2: the concrete scenario -/

theorem c2_cell0 :
    cellAcc [⟨[0, 5, 10, 15, 20, 25, 30, 35, 40, 45, 50, 55, 60, 65, 70, 75, 80, 85, 90, 95, 100], [0, 50, 100, 150, 200, 250, 300, 350, 400, 450, 500, 550, 600, 650, 700, 750, 800, 850, 900, 950, 1000], [10, 10, 10, 10, 10, 10, 10, 10, 10, 10, 10, 10, 10, 10, 10, 10, 10, 10, 10, 10, 10]⟩] 1000 100 0 100 0 100 = ⟨100, 0, 1⟩ := by
  norm_num [cellAcc, vehCellStats, marginTimes, marginSamples, wrappedPos,
    cellSamples, cellTimeIn, cellDist, rmod, interpUndef, List.cons_ne_nil]

theorem c2_cell1 :
    cellAcc [⟨[0, 5, 10, 15, 20, 25, 30, 35, 40, 45, 50, 55, 60, 65, 70, 75, 80, 85, 90, 95, 100], [0, 50, 100, 150, 200, 250, 300, 350, 400, 450, 500, 550, 600, 650, 700, 750, 800, 850, 900, 950, 1000], [10, 10, 10, 10, 10, 10, 10, 10, 10, 10, 10, 10, 10, 10, 10, 10, 10, 10, 10, 10, 10]⟩] 1000 100 0 100 100 200 = ⟨5, 50, 0⟩ := by
  norm_num [cellAcc, vehCellStats, marginTimes, marginSamples, wrappedPos,
    cellSamples, cellTimeIn, cellDist, rmod, interpUndef, List.cons_ne_nil]

theorem c2_cell2 :
    cellAcc [⟨[0, 5, 10, 15, 20, 25, 30, 35, 40, 45, 50, 55, 60, 65, 70, 75, 80, 85, 90, 95, 100], [0, 50, 100, 150, 200, 250, 300, 350, 400, 450, 500, 550, 600, 650, 700, 750, 800, 850, 900, 950, 1000], [10, 10, 10, 10, 10, 10, 10, 10, 10, 10, 10, 10, 10, 10, 10, 10, 10, 10, 10, 10, 10]⟩] 1000 100 0 100 200 300 = ⟨5, 50, 0⟩ := by
  norm_num [cellAcc, vehCellStats, marginTimes, marginSamples, wrappedPos,
    cellSamples, cellTimeIn, cellDist, rmod, interpUndef, List.cons_ne_nil]

theorem c2_cell3 :
    cellAcc [⟨[0, 5, 10, 15, 20, 25, 30, 35, 40, 45, 50, 55, 60, 65, 70, 75, 80, 85, 90, 95, 100], [0, 50, 100, 150, 200, 250, 300, 350, 400, 450, 500, 550, 600, 650, 700, 750, 800, 850, 900, 950, 1000], [10, 10, 10, 10, 10, 10, 10, 10, 10, 10, 10, 10, 10, 10, 10, 10, 10, 10, 10, 10, 10]⟩] 1000 100 0 100 300 400 = ⟨5, 50, 0⟩ := by
  norm_num [cellAcc, vehCellStats, marginTimes, marginSamples, wrappedPos,
    cellSamples, cellTimeIn, cellDist, rmod, interpUndef, List.cons_ne_nil]

theorem c2_cell4 :
    cellAcc [⟨[0, 5, 10, 15, 20, 25, 30, 35, 40, 45, 50, 55, 60, 65, 70, 75, 80, 85, 90, 95, 100], [0, 50, 100, 150, 200, 250, 300, 350, 400, 450, 500, 550, 600, 650, 700, 750, 800, 850, 900, 950, 1000], [10, 10, 10, 10, 10, 10, 10, 10, 10, 10, 10, 10, 10, 10, 10, 10, 10, 10, 10, 10, 10]⟩] 1000 100 0 100 400 500 = ⟨5, 50, 0⟩ := by
  norm_num [cellAcc, vehCellStats, marginTimes, marginSamples, wrappedPos,
    cellSamples, cellTimeIn, cellDist, rmod, interpUndef, List.cons_ne_nil]

theorem c2_cell5 :
    cellAcc [⟨[0, 5, 10, 15, 20, 25, 30, 35, 40, 45, 50, 55, 60, 65, 70, 75, 80, 85, 90, 95, 100], [0, 50, 100, 150, 200, 250, 300, 350, 400, 450, 500, 550, 600, 650, 700, 750, 800, 850, 900, 950, 1000], [10, 10, 10, 10, 10, 10, 10, 10, 10, 10, 10, 10, 10, 10, 10, 10, 10, 10, 10, 10, 10]⟩] 1000 100 0 100 500 600 = ⟨5, 50, 0⟩ := by
  norm_num [cellAcc, vehCellStats, marginTimes, marginSamples, wrappedPos,
    cellSamples, cellTimeIn, cellDist, rmod, interpUndef, List.cons_ne_nil]

theorem c2_cell6 :
    cellAcc [⟨[0, 5, 10, 15, 20, 25, 30, 35, 40, 45, 50, 55, 60, 65, 70, 75, 80, 85, 90, 95, 100], [0, 50, 100, 150, 200, 250, 300, 350, 400, 450, 500, 550, 600, 650, 700, 750, 800, 850, 900, 950, 1000], [10, 10, 10, 10, 10, 10, 10, 10, 10, 10, 10, 10, 10, 10, 10, 10, 10, 10, 10, 10, 10]⟩] 1000 100 0 100 600 700 = ⟨5, 50, 0⟩ := by
  norm_num [cellAcc, vehCellStats, marginTimes, marginSamples, wrappedPos,
    cellSamples, cellTimeIn, cellDist, rmod, interpUndef, List.cons_ne_nil]

theorem c2_cell7 :
    cellAcc [⟨[0, 5, 10, 15, 20, 25, 30, 35, 40, 45, 50, 55, 60, 65, 70, 75, 80, 85, 90, 95, 100], [0, 50, 100, 150, 200, 250, 300, 350, 400, 450, 500, 550, 600, 650, 700, 750, 800, 850, 900, 950, 1000], [10, 10, 10, 10, 10, 10, 10, 10, 10, 10, 10, 10, 10, 10, 10, 10, 10, 10, 10, 10, 10]⟩] 1000 100 0 100 700 800 = ⟨5, 50, 0⟩ := by
  norm_num [cellAcc, vehCellStats, marginTimes, marginSamples, wrappedPos,
    cellSamples, cellTimeIn, cellDist, rmod, interpUndef, List.cons_ne_nil]

theorem c2_cell8 :
    cellAcc [⟨[0, 5, 10, 15, 20, 25, 30, 35, 40, 45, 50, 55, 60, 65, 70, 75, 80, 85, 90, 95, 100], [0, 50, 100, 150, 200, 250, 300, 350, 400, 450, 500, 550, 600, 650, 700, 750, 800, 850, 900, 950, 1000], [10, 10, 10, 10, 10, 10, 10, 10, 10, 10, 10, 10, 10, 10, 10, 10, 10, 10, 10, 10, 10]⟩] 1000 100 0 100 800 900 = ⟨5, 50, 0⟩ := by
  norm_num [cellAcc, vehCellStats, marginTimes, marginSamples, wrappedPos,
    cellSamples, cellTimeIn, cellDist, rmod, interpUndef, List.cons_ne_nil]

theorem c2_cell9 :
    cellAcc [⟨[0, 5, 10, 15, 20, 25, 30, 35, 40, 45, 50, 55, 60, 65, 70, 75, 80, 85, 90, 95, 100], [0, 50, 100, 150, 200, 250, 300, 350, 400, 450, 500, 550, 600, 650, 700, 750, 800, 850, 900, 950, 1000], [10, 10, 10, 10, 10, 10, 10, 10, 10, 10, 10, 10, 10, 10, 10, 10, 10, 10, 10, 10, 10]⟩] 1000 100 0 100 900 1000 = ⟨5, 50, 0⟩ := by
  norm_num [cellAcc, vehCellStats, marginTimes, marginSamples, wrappedPos,
    cellSamples, cellTimeIn, cellDist, rmod, interpUndef, List.cons_ne_nil]

set_option maxHeartbeats 1000000 in
theorem c2_eval : calcMacro c2Table 100 100 1000 = .ok c2Actual := by
  norm_num [calcMacro, c2Table, c2Actual, listMin, listMax, arangeLen, cellOut,
    c2_cell0, c2_cell1, c2_cell2, c2_cell3, c2_cell4, c2_cell5, c2_cell6, c2_cell7,
    c2_cell8, c2_cell9, List.dropLast, AggOut.mk.injEq,
    show ⌈(11 : ℚ)⌉ = 11 from by norm_num,
    show ⌈(2 : ℚ)⌉ = 2 from by norm_num,
    show Int.toNat 1 = 1 from rfl,
    show Int.toNat 2 = 2 from rfl,
    show Int.toNat 10 = 10 from rfl,
    show Int.toNat 11 = 11 from rfl,
    show List.range 1 = [0] from rfl,
    show List.range 2 = [0, 1] from rfl,
    show List.range 10 = [0, 1, 2, 3, 4, 5, 6, 7, 8, 9] from rfl,
    show List.range 11 = [0, 1, 2, 3, 4, 5, 6, 7, 8, 9, 10] from rfl]

/-- C2 (counterexample). On the scenario table (5-second sampling) the
aggregator's output disagrees with the claim's expected values: the density of
spatial bin 1 is 0.5 veh/km (not 1.0), its flow is 0 veh/hr (not 36), and the
speed of bin 0 is 0 km/h (not 36). -/
theorem C2_counterexample :
    calcMacro c2Table 100 100 1000 = .ok c2Actual ∧
    (c2Actual.density.getD 0 []).getD 1 0 ≠ 1 ∧
    (c2Actual.flow.getD 0 []).getD 1 0 ≠ 36 ∧
    (c2Actual.speed.getD 0 []).getD 0 0 ≠ 36 :=
  ⟨c2_eval, by norm_num [c2Actual], by norm_num [c2Actual], by norm_num [c2Actual]⟩

/-- C2 (amended). For the scenario (one vehicle, L=1000, dx=dt=100, entering
at t=0 pos=0 at 10 m/s, observed over [0,100], sampled every 5 s) the single
time bin [0,100) actually receives: bin 0 gets time_spent 100 (the t=100
sample wraps from position 1000 to 0 and lands back in bin 0), so density
10 veh/km, distance 0 and speed 0, crossing 1 and flow 36 veh/hr; bins 1-9
get time_spent 5 (the last in-bin sample sits 5 s before the hand-off), so
density 0.5 veh/km, distance 50 giving speed 36 km/h, and no crossing (the
wrapped position array ends at 0, so both boundary interpolations are NaN),
giving flow 0. -/
theorem C2_amended : calcMacro c2Table 100 100 1000 = .ok c2Actual := c2_eval

end Edies

namespace Edies

/-! ## Claim C8: segment stitching -/

theorem onlineAux_id (L : ℚ) : ∀ (us : List ℚ) (prev : ℚ),
    List.Chain' (fun a b => a ≤ b + L / 2) (prev :: us) → onlineAux L prev us = us := by
  intro us
  induction us with
  | nil => intro prev _; rfl
  | cons u us ih =>
    intro prev hc
    rw [List.chain'_cons] at hc
    simp only [onlineAux, onlineStep]
    rw [if_neg (not_lt.mpr hc.1)]
    rw [ih u hc.2]

theorem onlinePass_id (L : ℚ) (us : List ℚ)
    (h : List.Chain' (fun a b => a ≤ b + L / 2) us) : onlinePass L us = us := by
  cases us with
  | nil => rfl
  | cons u us =>
    simp only [onlinePass]
    rw [onlineAux_id L us u h]

theorem secondAux_id (L : ℚ) : ∀ (us : List ℚ) (prev : ℚ),
    List.Chain' (fun a b => a ≤ b + L / 2) (prev :: us) → secondAux L prev 0 us = us := by
  intro us
  induction us with
  | nil => intro prev _; rfl
  | cons p ps ih =>
    intro prev hc
    rw [List.chain'_cons] at hc
    simp only [secondAux, add_zero]
    rw [if_neg (by linarith [hc.1] : ¬ p < prev - L / 2)]
    rw [ih p hc.2]

theorem secondPass_id (L : ℚ) (us : List ℚ)
    (h : List.Chain' (fun a b => a ≤ b + L / 2) us) : secondPass L us = us := by
  cases us with
  | nil => rfl
  | cons p ps =>
    simp only [secondPass]
    rw [secondAux_id L ps p h]

theorem reconPos_id (S L : ℚ) (recs : List RawRecord)
    (h : List.Chain' (fun a b => a ≤ b + L / 2) (recs.map (segPos S))) :
    reconPos S L recs = recs.map (segPos S) := by
  unfold reconPos
  rw [onlinePass_id L _ h, secondPass_id L _ h]

/-- C8. For a vehicle whose corridor-relative positions never drop by more
than half a corridor length between consecutive samples (as when the raw
position resets to near zero on entering the connector `b_0`, whose offset
lifts it to `S + raw`), the reconstruction is the identity on the stitched
positions: every `b_0` sample's continuous position is exactly
`901.53 + raw_position`, and a transition step onto `b_0` from any previous
position not exceeding `S + raw + L/2` never triggers the wrap correction. -/
theorem C8_segment_stitching (recs : List RawRecord)
    (hchain : List.Chain' (fun a b => a ≤ b + 1000 / 2)
      (recs.map (segPos (90153 / 100)))) :
    (reconPos (90153 / 100) 1000 recs = recs.map (segPos (90153 / 100)) ∧
      ∀ r ∈ recs, r.lane = "b_0" → segPos (90153 / 100) r = 90153 / 100 + r.rawPos) ∧
    ∀ (p raw : ℚ), 0 ≤ raw → p ≤ 90153 / 100 + raw + 1000 / 2 →
      onlineStep 1000 p (90153 / 100 + raw) = 90153 / 100 + raw := by
  refine ⟨⟨reconPos_id _ _ _ hchain, ?_⟩, ?_⟩
  · intro r _ hr
    simp [segPos, hr]
  · intro p raw _ hp
    unfold onlineStep
    rw [if_neg (by linarith : ¬ p > 90153 / 100 + raw + 1000 / 2)]

/-- C8 (witness): a vehicle at 900 m on the main edge that enters the
connector at raw position 0.5 reconstructs to the continuous position
901.53 + 0.5 = 902.03 with no wrap correction. -/
theorem C8_witness :
    (reconPos (90153 / 100) 1000
        [⟨0, "a_0", 900, 10⟩, ⟨1, "b_0", 1 / 2, 10⟩] =
      [⟨0, "a_0", 900, 10⟩, ⟨1, "b_0", 1 / 2, 10⟩].map (segPos (90153 / 100)) ∧
      ∀ r ∈ [(⟨0, "a_0", 900, 10⟩ : RawRecord), ⟨1, "b_0", 1 / 2, 10⟩],
        r.lane = "b_0" → segPos (90153 / 100) r = 90153 / 100 + r.rawPos) ∧
    ∀ (p raw : ℚ), 0 ≤ raw → p ≤ 90153 / 100 + raw + 1000 / 2 →
      onlineStep 1000 p (90153 / 100 + raw) = 90153 / 100 + raw :=
  C8_segment_stitching [⟨0, "a_0", 900, 10⟩, ⟨1, "b_0", 1 / 2, 10⟩]
    (by norm_num [segPos, List.chain'_cons,
      eq_false (by decide : ¬ (("a_0" : String) = "b_0"))])

end Edies

namespace Edies

/-! ## Claim C3: lap-wrap correctness for a constant-speed vehicle -/

theorem cpos_succ (v dt : ℚ) (k : ℕ) : cpos v dt (k + 1) = cpos v dt k + v * dt := by
  unfold cpos; push_cast; ring

theorem cpos_nonneg (v dt : ℚ) (hv : 0 ≤ v) (ht : 0 ≤ dt) (k : ℕ) : 0 ≤ cpos v dt k :=
  mul_nonneg hv (mul_nonneg (Nat.cast_nonneg k) ht)

theorem wpos_eq (v dt L : ℚ) (k : ℕ) :
    wpos v dt L k = cpos v dt k - L * ⌊cpos v dt k / L⌋ := rfl

theorem lap_nonneg (v dt L : ℚ) (hv : 0 ≤ v) (ht : 0 ≤ dt) (hL : 0 < L) (k : ℕ) :
    0 ≤ ⌊cpos v dt k / L⌋ :=
  Int.floor_nonneg.mpr (div_nonneg (cpos_nonneg v dt hv ht k) hL.le)

theorem lap_ge_one_iff (v dt L : ℚ) (hL : 0 < L) (k : ℕ) :
    L ≤ cpos v dt k ↔ 1 ≤ ⌊cpos v dt k / L⌋ := by
  rw [Int.le_floor]; push_cast; rw [one_le_div hL]

theorem lap_cases (v dt L : ℚ) (hv : 0 < v) (ht : 0 < dt) (hd : v * dt < L / 2)
    (k : ℕ) :
    ⌊cpos v dt (k+1) / L⌋ = ⌊cpos v dt k / L⌋ ∨
    ⌊cpos v dt (k+1) / L⌋ = ⌊cpos v dt k / L⌋ + 1 := by
  have hvd : 0 < v * dt := mul_pos hv ht
  have hL : 0 < L := by linarith
  have h1 : ⌊cpos v dt k / L⌋ ≤ ⌊cpos v dt (k+1) / L⌋ := by
    apply Int.floor_le_floor
    apply div_le_div_of_nonneg_right _ hL.le
    rw [cpos_succ]; linarith
  have h2 : ⌊cpos v dt (k+1) / L⌋ ≤ ⌊cpos v dt k / L⌋ + 1 := by
    have hstep : cpos v dt (k+1) / L ≤ cpos v dt k / L + 1 := by
      rw [cpos_succ, add_div]
      have : v * dt / L ≤ 1 := by rw [div_le_one hL]; linarith
      linarith
    calc ⌊cpos v dt (k+1) / L⌋ ≤ ⌊cpos v dt k / L + 1⌋ := Int.floor_le_floor hstep
      _ = ⌊cpos v dt k / L⌋ + 1 := Int.floor_add_one _
  omega

theorem wpos_succ (v dt L : ℚ) (k : ℕ) :
    wpos v dt L (k+1) = wpos v dt L k + v * dt
      - L * ((⌊cpos v dt (k+1) / L⌋ : ℚ) - (⌊cpos v dt k / L⌋ : ℚ)) := by
  rw [wpos_eq, wpos_eq, cpos_succ]; ring

theorem online_step_c3 (v dt L : ℚ) (hv : 0 < v) (ht : 0 < dt) (hd : v * dt < L / 2)
    (k : ℕ) :
    onlineStep L (qpos v dt L k) (wpos v dt L (k+1)) = qpos v dt L (k+1) := by
  have hvd : 0 < v * dt := mul_pos hv ht
  have hL : 0 < L := by linarith
  have hc1 : cpos v dt (k+1) = cpos v dt k + v * dt := cpos_succ v dt k
  rcases lap_cases v dt L hv ht hd k with hA | hA
  · have hw : wpos v dt L (k+1) = wpos v dt L k + v * dt := by
      rw [wpos_succ, hA]; ring
    by_cases hck : L ≤ cpos v dt k
    · have hck1 : L ≤ cpos v dt (k+1) := by rw [hc1]; linarith
      have hqk : qpos v dt L k = wpos v dt L k + L := by
        unfold qpos; rw [if_pos hck]
      have hqk1 : qpos v dt L (k+1) = wpos v dt L (k+1) + L := by
        unfold qpos; rw [if_pos hck1]
      rw [hqk, hqk1]
      unfold onlineStep
      rw [if_pos (show wpos v dt L k + L > wpos v dt L (k+1) + L / 2 by linarith [hw])]
    · have hck1 : ¬ L ≤ cpos v dt (k+1) := by
        intro hle
        apply hck
        rw [lap_ge_one_iff v dt L hL, ← hA]
        rw [lap_ge_one_iff v dt L hL] at hle
        exact hle
      have hqk : qpos v dt L k = wpos v dt L k := by
        unfold qpos; rw [if_neg hck, add_zero]
      have hqk1 : qpos v dt L (k+1) = wpos v dt L (k+1) := by
        unfold qpos; rw [if_neg hck1, add_zero]
      rw [hqk, hqk1]
      unfold onlineStep
      rw [if_neg (show ¬ (wpos v dt L k > wpos v dt L (k+1) + L / 2) by linarith [hw])]
  · have hw : wpos v dt L (k+1) = wpos v dt L k + v * dt - L := by
      rw [wpos_succ, hA]; push_cast; ring
    have hA1 : (1 : ℤ) ≤ ⌊cpos v dt (k+1) / L⌋ := by
      have := lap_nonneg v dt L hv.le ht.le hL k
      omega
    have hck1 : L ≤ cpos v dt (k+1) := (lap_ge_one_iff v dt L hL (k+1)).mpr hA1
    have hqk1 : qpos v dt L (k+1) = wpos v dt L (k+1) + L := by
      unfold qpos; rw [if_pos hck1]
    by_cases hck : L ≤ cpos v dt k
    · have hqk : qpos v dt L k = wpos v dt L k + L := by
        unfold qpos; rw [if_pos hck]
      rw [hqk, hqk1]
      unfold onlineStep
      rw [if_pos (show wpos v dt L k + L > wpos v dt L (k+1) + L / 2 by linarith [hw])]
    · have hqk : qpos v dt L k = wpos v dt L k := by
        unfold qpos; rw [if_neg hck, add_zero]
      rw [hqk, hqk1]
      unfold onlineStep
      rw [if_pos (show wpos v dt L k > wpos v dt L (k+1) + L / 2 by linarith [hw])]

theorem qpos_succ_c3 (v dt L : ℚ) (hv : 0 < v) (ht : 0 < dt) (hd : v * dt < L / 2)
    (k : ℕ) :
    qpos v dt L (k+1) = qpos v dt L k + v * dt ∨
    (qpos v dt L (k+1) = qpos v dt L k + v * dt - L ∧ L ≤ cpos v dt k) := by
  have hvd : 0 < v * dt := mul_pos hv ht
  have hL : 0 < L := by linarith
  have hc1 : cpos v dt (k+1) = cpos v dt k + v * dt := cpos_succ v dt k
  rcases lap_cases v dt L hv ht hd k with hA | hA
  · left
    have hw : wpos v dt L (k+1) = wpos v dt L k + v * dt := by
      rw [wpos_succ, hA]; ring
    by_cases hck : L ≤ cpos v dt k
    · have hck1 : L ≤ cpos v dt (k+1) := by rw [hc1]; linarith
      have hqk : qpos v dt L k = wpos v dt L k + L := by
        unfold qpos; rw [if_pos hck]
      have hqk1 : qpos v dt L (k+1) = wpos v dt L (k+1) + L := by
        unfold qpos; rw [if_pos hck1]
      rw [hqk, hqk1, hw]
      ring
    · have hck1 : ¬ L ≤ cpos v dt (k+1) := by
        intro hle
        apply hck
        rw [lap_ge_one_iff v dt L hL, ← hA]
        rw [lap_ge_one_iff v dt L hL] at hle
        exact hle
      have hqk : qpos v dt L k = wpos v dt L k := by
        unfold qpos; rw [if_neg hck, add_zero]
      have hqk1 : qpos v dt L (k+1) = wpos v dt L (k+1) := by
        unfold qpos; rw [if_neg hck1, add_zero]
      rw [hqk, hqk1, hw]
  · have hw : wpos v dt L (k+1) = wpos v dt L k + v * dt - L := by
      rw [wpos_succ, hA]; push_cast; ring
    have hA1 : (1 : ℤ) ≤ ⌊cpos v dt (k+1) / L⌋ := by
      have := lap_nonneg v dt L hv.le ht.le hL k
      omega
    have hck1 : L ≤ cpos v dt (k+1) := (lap_ge_one_iff v dt L hL (k+1)).mpr hA1
    have hqk1 : qpos v dt L (k+1) = wpos v dt L (k+1) + L := by
      unfold qpos; rw [if_pos hck1]
    by_cases hck : L ≤ cpos v dt k
    · right
      refine ⟨?_, hck⟩
      have hqk : qpos v dt L k = wpos v dt L k + L := by
        unfold qpos; rw [if_pos hck]
      rw [hqk, hqk1, hw]
      ring
    · left
      have hqk : qpos v dt L k = wpos v dt L k := by
        unfold qpos; rw [if_neg hck, add_zero]
      rw [hqk, hqk1, hw]
      ring

theorem map_range_shift {α : Type} (f : ℕ → α) (m c : ℕ) :
    (List.range (m + 1)).map (fun j => f (j + c)) =
      f c :: (List.range m).map (fun j => f (j + (c + 1))) := by
  rw [List.range_succ_eq_map]
  simp only [List.map_cons, List.map_map]
  congr 1
  · simp
  · apply List.map_congr_left
    intro a _
    simp only [Function.comp_apply]
    congr 1
    omega

theorem onlineAux_c3 (v dt L : ℚ) (hv : 0 < v) (ht : 0 < dt) (hd : v * dt < L / 2) :
    ∀ (m k : ℕ),
      onlineAux L (qpos v dt L k)
        ((List.range m).map fun j => wpos v dt L (j + (k + 1))) =
      (List.range m).map fun j => qpos v dt L (j + (k + 1)) := by
  intro m
  induction m with
  | zero => intro k; simp [onlineAux]
  | succ n ih =>
    intro k
    rw [map_range_shift (fun i => wpos v dt L i) n (k + 1),
      map_range_shift (fun i => qpos v dt L i) n (k + 1)]
    simp only [onlineAux]
    rw [online_step_c3 v dt L hv ht hd k]
    rw [ih (k + 1)]

theorem secondAux_c3 (v dt L : ℚ) (hv : 0 < v) (ht : 0 < dt) (hd : v * dt < L / 2) :
    ∀ (m k : ℕ),
      secondAux L (cpos v dt k) (cpos v dt k - qpos v dt L k)
        ((List.range m).map fun j => qpos v dt L (j + (k + 1))) =
      (List.range m).map fun j => cpos v dt (j + (k + 1)) := by
  intro m
  induction m with
  | zero => intro k; simp [secondAux]
  | succ n ih =>
    intro k
    rw [map_range_shift (fun i => qpos v dt L i) n (k + 1),
      map_range_shift (fun i => cpos v dt i) n (k + 1)]
    simp only [secondAux]
    have hvd : 0 < v * dt := mul_pos hv ht
    have hL : 0 < L := by linarith
    have hc1 : cpos v dt (k+1) = cpos v dt k + v * dt := cpos_succ v dt k
    rcases qpos_succ_c3 v dt L hv ht hd k with hq | hq
    · rw [if_neg (show ¬ (qpos v dt L (k+1) + (cpos v dt k - qpos v dt L k) <
          cpos v dt k - L / 2) by rw [hq]; linarith)]
      rw [show qpos v dt L (k+1) + (cpos v dt k - qpos v dt L k) = cpos v dt (k+1) from by
        rw [hq, hc1]; ring]
      rw [show cpos v dt k - qpos v dt L k = cpos v dt (k+1) - qpos v dt L (k+1) from by
        rw [hq, hc1]; ring]
      rw [ih (k + 1)]
    · rw [if_pos (show qpos v dt L (k+1) + (cpos v dt k - qpos v dt L k) <
          cpos v dt k - L / 2 by rw [hq.1]; linarith)]
      rw [show qpos v dt L (k+1) + (cpos v dt k - qpos v dt L k) + L = cpos v dt (k+1) from by
        rw [hq.1, hc1]; ring]
      rw [show cpos v dt k - qpos v dt L k + L = cpos v dt (k+1) - qpos v dt L (k+1) from by
        rw [hq.1, hc1]; ring]
      rw [ih (k + 1)]

theorem segPos_geom (S t w sp : ℚ) : segPos S (geomRecord S t w sp) = w := by
  by_cases h : w < S
  · simp [geomRecord, h, segPos, eq_false (by decide : ¬ (("a_0" : String) = "b_0"))]
  · simp [geomRecord, h, segPos]

theorem constSpeed_map_segPos (v dt L S : ℚ) (n : ℕ) :
    (constSpeedRecs v dt L S n).map (segPos S) =
      (List.range n).map fun k => wpos v dt L k := by
  unfold constSpeedRecs
  rw [List.map_map]
  apply List.map_congr_left
  intro a _
  simp only [Function.comp_apply, segPos_geom]

/-- C3 (amended). For a vehicle moving at constant speed `v` on the two-segment
corridor of length `L`, entering at position 0 at time 0 and sampled every
`dt` seconds, PROVIDED one sampling step covers less than half a corridor
(`v*dt < L/2`), the reconstructed continuous positions equal `v*t` exactly at
every sample and are strictly increasing with no resets: every backward jump
of more than `L/2` has been compensated by a cumulative corridor-length
offset. -/
theorem C3_amended (v dt L S : ℚ) (hv : 0 < v) (ht : 0 < dt) (hd : v * dt < L / 2)
    (n : ℕ) :
    reconPos S L (constSpeedRecs v dt L S n) =
      (List.range n).map (fun (k : ℕ) => v * ((k : ℚ) * dt)) ∧
    List.Pairwise (· < ·) (reconPos S L (constSpeedRecs v dt L S n)) := by
  have hvd : 0 < v * dt := mul_pos hv ht
  have hL : 0 < L := by linarith
  have hc0 : cpos v dt 0 = 0 := by simp [cpos]
  have hw0 : wpos v dt L 0 = 0 := by
    unfold wpos rmod
    rw [hc0]
    norm_num
  have hq0 : qpos v dt L 0 = 0 := by
    unfold qpos
    rw [hw0, if_neg (show ¬ L ≤ cpos v dt 0 by rw [hc0]; linarith), add_zero]
  have hmain : reconPos S L (constSpeedRecs v dt L S n) =
      (List.range n).map fun k => cpos v dt k := by
    unfold reconPos
    rw [constSpeed_map_segPos]
    cases n with
    | zero => simp [onlinePass, secondPass]
    | succ m =>
      have hshiftW : (List.range (m + 1)).map (fun k => wpos v dt L k) =
          wpos v dt L 0 :: (List.range m).map (fun j => wpos v dt L (j + 1)) := by
        have h := map_range_shift (fun i => wpos v dt L i) m 0
        simpa using h
      have hshiftC : (List.range (m + 1)).map (fun k => cpos v dt k) =
          cpos v dt 0 :: (List.range m).map (fun j => cpos v dt (j + 1)) := by
        have h := map_range_shift (fun i => cpos v dt i) m 0
        simpa using h
      rw [hshiftW, hshiftC]
      simp only [onlinePass]
      have honline : onlineAux L (wpos v dt L 0)
          ((List.range m).map fun j => wpos v dt L (j + 1)) =
          (List.range m).map fun j => qpos v dt L (j + 1) := by
        rw [hw0, ← hq0]
        have h := onlineAux_c3 v dt L hv ht hd m 0
        simpa using h
      rw [honline]
      simp only [secondPass]
      have hsecond : secondAux L (wpos v dt L 0) 0
          ((List.range m).map fun j => qpos v dt L (j + 1)) =
          (List.range m).map fun j => cpos v dt (j + 1) := by
        have h := secondAux_c3 v dt L hv ht hd m 0
        rw [hc0, hq0] at h
        rw [hw0]
        simpa using h
      rw [hsecond, hw0, hc0]
  constructor
  · exact hmain
  · rw [hmain, List.pairwise_map]
    refine (List.pairwise_lt_range n).imp ?_
    intro a b hab
    unfold cpos
    have hcast : (a : ℚ) < (b : ℚ) := by exact_mod_cast hab
    exact mul_lt_mul_of_pos_left (mul_lt_mul_of_pos_right hcast ht) hv

/-- C3 (witness): at `v = 10 m/s`, `dt = 1 s`, `L = 1000`, `S = 901.53`,
three samples reconstruct to exactly `v*t`, strictly increasing. -/
theorem C3_witness :
    reconPos (90153/100) 1000 (constSpeedRecs 10 1 1000 (90153/100) 3) =
      (List.range 3).map (fun (k : ℕ) => 10 * ((k : ℚ) * 1)) ∧
    List.Pairwise (· < ·)
      (reconPos (90153/100) 1000 (constSpeedRecs 10 1 1000 (90153/100) 3)) :=
  C3_amended 10 1 1000 (90153/100) (by norm_num) (by norm_num) (by norm_num) 3

/-- C3 (counterexample). Without a bound on the sampling step the claim is
false: at `v = 1 m/s`, `dt = 600 s`, `L = 1000` (so `v*dt = 600 > L/2`), the
five samples `N*L/(v*dt) = 3*1000/600 = 5` reconstruct to
`[0, 600, 200, 800, 400]`, not to `v*t = [0, 600, 1200, 1800, 2400]` — the
half-corridor wrap test cannot see a step of 600 m. -/
theorem C3_counterexample :
    reconPos (90153/100) 1000 (constSpeedRecs 1 600 1000 (90153/100) 5) =
      [0, 600, 200, 800, 400] ∧
    reconPos (90153/100) 1000 (constSpeedRecs 1 600 1000 (90153/100) 5) ≠
      (List.range 5).map (fun (k : ℕ) => 1 * ((k : ℚ) * 600)) := by
  have heval : reconPos (90153/100) 1000 (constSpeedRecs 1 600 1000 (90153/100) 5) =
      [0, 600, 200, 800, 400] := by
    norm_num [reconPos, secondPass, secondAux, onlinePass, onlineAux, onlineStep,
      segPos, constSpeedRecs, geomRecord, wpos, cpos, rmod,
      eq_false (by decide : ¬ (("a_0" : String) = "b_0")),
      show List.range 5 = [0, 1, 2, 3, 4] from rfl]
  refine ⟨heval, ?_⟩
  rw [heval]
  norm_num [show List.range 5 = [0, 1, 2, 3, 4] from rfl]

end Edies
